import Mathlib

/-!
# Verification of the voice-tui recording-to-transcription pipeline

Shallow embedding of the core of the `voice-tui` repository:

* `src/audio/recorder.ts` — WAV header encoding (`createWavHeader`), header
  decoding (the parsing portion of `loadWav`), the `AudioRecorder` state
  machine (`start` / `stop` / chunk ingestion with auto-stop) and its
  amplitude computation (`calculateAmplitude`);
* `src/whisper/model.ts` — model download (`downloadModel`), presence check
  (`isModelDownloaded`), deletion (`deleteModel`);
* `src/whisper/transcribe.ts` — the progress-event trace of `transcribe`
  (real and mock backends) and the `calculateConfidence` heuristic.

JavaScript numbers are modelled as `ℚ` (all the arithmetic in scope is
exact at these magnitudes), byte buffers as `List Nat`, wall-clock
timestamps (`Date.now()`) as `Nat` milliseconds.  Calls that throw are
modelled with `Option`/`Except` or an explicit error component.  Filesystem
and network effects are modelled by explicit event traces / response values.
-/

namespace VoiceTui

/-! ## Byte-level helpers (Node `Buffer` read/write primitives)

`Buffer.writeUInt32LE` / `writeUInt16LE` throw a `RangeError` when the value
does not fit (or is not an integer); the encoders below therefore return
`Option`.  `Buffer.readUInt32LE b off` throws unless `off + 4 ≤ b.length`.
-/

/-- Little-endian byte serialization of a 32-bit value (`Buffer.writeUInt32LE`),
valid when `v < 2^32`. -/
def u32le (v : Nat) : List Nat :=
  [v % 256, v / 256 % 256, v / 65536 % 256, v / 16777216 % 256]

/-- Little-endian byte serialization of a 16-bit value (`Buffer.writeUInt16LE`),
valid when `v < 2^16`. -/
def u16le (v : Nat) : List Nat :=
  [v % 256, v / 256 % 256]

/-- `Buffer.readUInt32LE buf off`: `none` models the `RangeError` thrown when
the read would run past the end of the buffer. -/
def readUInt32LE (b : List Nat) (off : Nat) : Option Nat :=
  if off + 4 ≤ b.length then
    some (b.getD off 0 + 256 * b.getD (off + 1) 0 + 65536 * b.getD (off + 2) 0 +
      16777216 * b.getD (off + 3) 0)
  else none

/-- `Buffer.readInt16LE b i` (signed 16-bit little-endian).  All call sites in
the source guard `i + 1 < b.length`, so out-of-range defaults are never hit. -/
def readInt16LE (b : List Nat) (i : Nat) : Int :=
  let u := b.getD i 0 + 256 * b.getD (i + 1) 0
  if u < 32768 then (u : Int) else (u : Int) - 65536

/-! ## WAV header codec (`createWavHeader`, header parsing of `loadWav`) -/

/-- The `WavHeader` interface of `src/audio/recorder.ts`. -/
structure WavHeader where
  sampleRate : Nat
  numChannels : Nat
  bitsPerSample : Nat
  dataLength : Nat

/-- ASCII bytes of `"RIFF"` as written by `buffer.write('RIFF', offset)`. -/
def riffBytes : List Nat := [82, 73, 70, 70]

/-- ASCII bytes of `"WAVE"`. -/
def waveBytes : List Nat := [87, 65, 86, 69]

/-- ASCII bytes of `"fmt "`. -/
def fmtBytes : List Nat := [102, 109, 116, 32]

/-- ASCII bytes of `"data"`. -/
def dataBytes : List Nat := [100, 97, 116, 97]

/-- `createWavHeader` of `src/audio/recorder.ts`: the 44-byte WAV header.
`blockAlign = numChannels * bitsPerSample / 8` and
`byteRate = sampleRate * blockAlign`.  The result is `none` exactly when one
of the `Buffer.writeUInt*LE` calls of the source would throw: a field value
out of range for its slot, or a non-integral `blockAlign`
(`8 ∤ numChannels * bitsPerSample`). -/
def createWavHeader (h : WavHeader) : Option (List Nat) :=
  let blockAlign := h.numChannels * h.bitsPerSample / 8
  let byteRate := h.sampleRate * blockAlign
  if 8 ∣ h.numChannels * h.bitsPerSample ∧ 36 + h.dataLength < 4294967296 ∧
      h.numChannels < 65536 ∧ h.sampleRate < 4294967296 ∧
      byteRate < 4294967296 ∧ blockAlign < 65536 ∧ h.bitsPerSample < 65536 then
    some (riffBytes ++ u32le (36 + h.dataLength) ++ waveBytes ++ fmtBytes ++
      u32le 16 ++ u16le 1 ++ u16le h.numChannels ++ u32le h.sampleRate ++
      u32le byteRate ++ u16le blockAlign ++ u16le h.bitsPerSample ++
      dataBytes ++ u32le h.dataLength)
  else none

/-- The header-parsing portion of `loadWav` (`src/audio/recorder.ts`):
`sampleRate = buffer.readUInt32LE(24)` then `dataLength = buffer.readUInt32LE(40)`;
`none` models the `RangeError` thrown on a buffer too short for either read.
No magic-marker validation is performed by the source. -/
def decodeHeader (b : List Nat) : Option (Nat × Nat) :=
  match readUInt32LE b 24 with
  | none => none
  | some sampleRate =>
    match readUInt32LE b 40 with
    | none => none
    | some dataLength => some (sampleRate, dataLength)

/-! ## Amplitude computation (`AudioRecorder.calculateAmplitude`)

```
if (buffer.length < 2) return 0
let sum = 0; let samples = 0
for (let i = 0; i < buffer.length; i += 200) {
  if (i + 1 < buffer.length) { sum += Math.abs(buffer.readInt16LE(i)); samples++ }
}
if (samples === 0) return 0
return Math.min(1, (sum / samples) / 32768)
```
-/

/-- The accumulation loop of `calculateAmplitude`: starting at byte offset `i`
and stepping by 200 bytes, add `|readInt16LE|` of each offset that still has
two bytes available, counting the samples taken. -/
def ampGo (b : List Nat) (i sum samples : Nat) : Nat × Nat :=
  if i < b.length then
    if i + 1 < b.length then
      ampGo b (i + 200) (sum + (readInt16LE b i).natAbs) (samples + 1)
    else
      ampGo b (i + 200) sum samples
  else (sum, samples)
termination_by b.length - i
decreasing_by all_goals omega

/-- `AudioRecorder.calculateAmplitude` of `src/audio/recorder.ts`. -/
def calculateAmplitude (b : List Nat) : ℚ :=
  if b.length < 2 then 0
  else
    let r := ampGo b 0 0 0
    if r.2 = 0 then 0
    else min 1 (((r.1 : ℚ) / (r.2 : ℚ)) / 32768)

/-- The byte offsets visited by the sampling loop of `calculateAmplitude`
starting from `i`: every 200th byte offset (`i`, `i+200`, `i+400`, …) that
has a full 16-bit sample available before the end of the buffer. -/
def sampleOffsets (len i : Nat) : List Nat :=
  if i < len then
    (if i + 1 < len then [i] else []) ++ sampleOffsets len (i + 200)
  else []
termination_by len - i
decreasing_by all_goals omega

/-- Absolute values of the 16-bit samples that the loop of
`calculateAmplitude` actually reads: one sample every 200 bytes. -/
def sampledAbs (b : List Nat) : List Nat :=
  (sampleOffsets b.length 0).map (fun i => (readInt16LE b i).natAbs)

/-- Specification rendering of the amended amplitude claim: the mean of the
absolute values of the *subsampled* 16-bit samples (every 200th byte offset),
normalized by 32768 and clamped to 1; buffers shorter than one full sample
(2 bytes) yield 0. -/
def subsampleAmplitude (b : List Nat) : ℚ :=
  if b.length < 2 then 0
  else if (sampledAbs b).length = 0 then 0
  else min 1 ((((sampledAbs b).sum : ℚ) / ((sampledAbs b).length : ℚ)) / 32768)

/-- Specification rendering of claim C5 verbatim: the mean of the absolute
values of **all** 16-bit samples in the chunk, normalized by 32768, clamped
to 1.0; fewer than one sample yields 0. -/
def claimedAmplitude (b : List Nat) : ℚ :=
  let allAbs := (List.range (b.length / 2)).map (fun k => (readInt16LE b (2 * k)).natAbs)
  if b.length / 2 < 1 then 0
  else min 1 (((allAbs.sum : ℚ) / (allAbs.length : ℚ)) / 32768)

/-! ## The `AudioRecorder` state machine (`src/audio/recorder.ts`)

Fields of the class that the claims are about: `isRecording`, `audioChunks`,
`startTime`, plus the configured `options.duration` limit and
`options.sampleRate`, and whether an amplitude callback is registered.
Timestamps are `Date.now()` milliseconds.
-/

/-- The mutable state of an `AudioRecorder` instance. -/
structure RecorderState where
  isRecording : Bool
  audioChunks : List (List Nat)
  startTime : Nat
  hasAmplitudeCallback : Bool
  sampleRate : Nat
  /-- `options.duration`, in seconds. -/
  durationLimit : ℚ
deriving DecidableEq

/-- The errors the recorder throws.  In the spec's taxonomy
`alreadyRecording` and `notRecording` are the `InvalidStateError`s;
`startFailed` wraps a capture-source failure (`CaptureError`). -/
inductive RecError where
  | alreadyRecording
  | notRecording
  | startFailed
deriving DecidableEq

/-- The `RecordingResult` interface. -/
structure RecordingResult where
  audioBuffer : List Nat
  duration : ℚ
  sampleRate : Nat
deriving DecidableEq

/-- `AudioRecorder.start`: guard (`throw 'Already recording'`), then reset
chunks, record the start timestamp, set the recording flag, and start the
capture backend; if the backend throws (`captureOk = false`), the flag is
cleared again and the failure is rethrown.  Returns the post-call state and
the error, if any. -/
def start (s : RecorderState) (now : Nat) (captureOk : Bool) :
    RecorderState × Option RecError :=
  if s.isRecording then (s, some .alreadyRecording)
  else
    let s1 := { s with audioChunks := [], startTime := now, isRecording := true }
    if captureOk then (s1, none)
    else ({ s1 with isRecording := false }, some .startFailed)

/-- `AudioRecorder.stop`: guard (`throw 'Not recording'`), clear the flag,
stop the capture process, and return the concatenated chunks with the
wall-clock duration.  Returns the post-call state and the outcome. -/
def stop (s : RecorderState) (now : Nat) :
    RecorderState × Except RecError RecordingResult :=
  if s.isRecording then
    let s1 := { s with isRecording := false }
    (s1, .ok ⟨s1.audioChunks.flatten, ((now - s1.startTime : Nat) : ℚ) / 1000, s1.sampleRate⟩)
  else (s, .error .notRecording)

/-- `AudioRecorder.elapsedTime` (seconds): 0 when idle, otherwise wall-clock
time since `startTime`. -/
def elapsedTime (s : RecorderState) (now : Nat) : ℚ :=
  if s.isRecording then ((now - s.startTime : Nat) : ℚ) / 1000 else 0

/-- The `'data'` chunk handler installed by `startRealRecording`: append the
chunk, compute its amplitude and (when a callback is registered) emit it,
then, if the duration limit has been reached, call `stop()` and *discard*
its returned `RecordingResult` — only the post-`stop` state is kept.
Returns the post-call state and the list of amplitude values delivered to
the callback. -/
def onChunk (s : RecorderState) (chunk : List Nat) (now : Nat) :
    RecorderState × List ℚ :=
  let s1 := { s with audioChunks := s.audioChunks ++ [chunk] }
  let events := if s1.hasAmplitudeCallback then [calculateAmplitude chunk] else []
  if s1.durationLimit ≤ elapsedTime s1 now then
    ((stop s1 now).1, events)
  else (s1, events)

/-! ## Model asset store (`src/whisper/config.ts`, `src/whisper/model.ts`) -/

/-- `getModelPath` of `src/whisper/config.ts`:
`` `${homeDir}/.voice-tui/models/ggml-${model}.bin` ``. -/
def getModelPath (homeDir model : String) : String :=
  homeDir ++ "/.voice-tui/models/ggml-" ++ model ++ ".bin"

/-- The keys of the `WHISPER_MODELS` registry of `src/whisper/config.ts`. -/
def whisperModelNames : List String :=
  ["tiny", "tiny.en", "base", "base.en", "small", "small.en",
   "medium", "medium.en", "large-v1", "large", "large-v3-turbo"]

/-- JavaScript `path.substring(0, path.lastIndexOf('/'))` on the character
list of the path: everything strictly before the last `'/'`, the empty
string when there is no `'/'` (in JS `lastIndexOf` returns `-1` and
`substring(0, -1)` clamps to the empty string). -/
def dirOfPath (s : List Char) : List Char :=
  ((s.reverse.dropWhile (fun c => c ≠ '/')).drop 1).reverse

/-- `modelPath.substring(0, modelPath.lastIndexOf('/'))` as used by
`downloadModel` to derive the model directory. -/
def modelDirPath (modelPath : String) : String :=
  ⟨dirOfPath modelPath.data⟩

/-- One filesystem write performed via `Bun.write(path, content)`. -/
structure FsEvent where
  path : String
  content : List Nat
deriving DecidableEq

/-- A progress record passed to a `downloadModel` progress callback
(`{percent, downloadedBytes, totalBytes}`). -/
structure DownloadProgress where
  percent : ℚ
  downloadedBytes : Nat
  totalBytes : Nat
deriving DecidableEq

/-- The observable behaviour of one `fetch` of a model URL: whether the
response was OK, whether it had a body, the parsed `content-length`
(`0` when the header is missing), the chunks the stream reader delivered,
and whether the reader then threw instead of reporting `done`. -/
structure NetResponse where
  ok : Bool
  hasBody : Bool
  contentLength : Nat
  chunks : List (List Nat)
  streamError : Bool
deriving DecidableEq

/-- The progress callbacks issued by the download loop: one per received
chunk, with cumulative byte counts, skipped entirely when the total size is
unknown (`totalBytes = 0`). -/
def progressAux (total acc : Nat) : List (List Nat) → List DownloadProgress
  | [] => []
  | c :: rest =>
    ⟨((acc + c.length : Nat) : ℚ) / (total : ℚ) * 100, acc + c.length, total⟩ ::
      progressAux total (acc + c.length) rest

/-- All progress callbacks of one download of `chunks` with announced size
`total`. -/
def progressList (total : Nat) (chunks : List (List Nat)) : List DownloadProgress :=
  if 0 < total then progressAux total 0 chunks else []

/-- `downloadModel` of `src/whisper/model.ts`, as a trace: the filesystem
writes it performs, the progress callbacks it issues, and whether it
returned normally (`true`) or threw (`false`).  The source first writes
`` `${modelDir}/.gitkeep` `` to ensure the directory exists, then fetches;
on a non-OK response or a missing body it throws; it accumulates all stream
chunks in memory (issuing progress callbacks), and only after the stream
has signalled `done` does it write the combined bytes to `modelPath` in a
single `Bun.write`.  A stream-read failure propagates before any write to
`modelPath`. -/
def downloadModel (homeDir modelName : String) (resp : NetResponse) :
    List FsEvent × List DownloadProgress × Bool :=
  let modelPath := getModelPath homeDir modelName
  let gitkeep : FsEvent := ⟨modelDirPath modelPath ++ "/.gitkeep", []⟩
  if resp.ok then
    if resp.hasBody then
      let progress := progressList resp.contentLength resp.chunks
      if resp.streamError then ([gitkeep], progress, false)
      else ([gitkeep, ⟨modelPath, resp.chunks.flatten⟩], progress, true)
    else ([gitkeep], [], false)
  else ([gitkeep], [], false)

/-- A filesystem snapshot: content of the file at each path, if any. -/
def FileSystem := String → Option (List Nat)

/-- `Bun.write(path, content)` over a `FileSystem` snapshot: creates or
overwrites the file. -/
def fsWrite (fs : FileSystem) (p : String) (content : List Nat) : FileSystem :=
  fun q => if q = p then some content else fs q

/-- `isModelDownloaded` of `src/whisper/model.ts`:
`Bun.file(getModelPath(modelName)).exists()`. -/
def isModelDownloaded (homeDir modelName : String) (fs : FileSystem) : Bool :=
  (fs (getModelPath homeDir modelName)).isSome

/-- `deleteModel` of `src/whisper/model.ts`: `Bun.write(modelPath, '')` —
the source's own comment notes it merely overwrites the file with empty
content instead of removing it. -/
def deleteModel (homeDir modelName : String) (fs : FileSystem) : FileSystem :=
  fsWrite fs (getModelPath homeDir modelName) []

/-! ## Transcription progress traces (`src/whisper/transcribe.ts`)

`transcribe` is modelled by the sequence of `TranscriptionProgress` events
it delivers to `onProgress` together with whether it returned normally.
The filesystem side effects of `realTranscribe` (the scratch WAV file) are
not part of these claims and are not traced here.
-/

/-- The `status` field of a `TranscriptionProgress`. -/
inductive TStatus where
  | loading
  | processing
  | complete
  | error
deriving DecidableEq

/-- The `TranscriptionProgress` interface (`{status, percent, message}`). -/
structure TranscriptionProgress where
  status : TStatus
  percent : ℚ
  message : String
deriving DecidableEq

/-- The progress events of `mockTranscribe`: ten steps, percent
`(i / steps) * 100` for `i = 0 … 9`. -/
def mockEvents : List TranscriptionProgress :=
  (List.range 10).map fun i =>
    ⟨.processing, ((i : ℚ) / 10) * 100,
      "Processing audio... " ++ toString (round (((i : ℚ) / 10) * 100)) ++ "%"⟩

/-- The progress events of `realTranscribe`: 25% after writing the scratch
WAV, 75% after `nodewhisper` returns; when inference throws
(`inferOk = false`) the 75% event is never reached and the error
propagates. -/
def realEvents (inferOk : Bool) : List TranscriptionProgress :=
  ⟨.processing, 25, "Processing audio..."⟩ ::
    (if inferOk then [⟨.processing, 75, "Finalizing..."⟩] else [])

/-- `transcribe` of `src/whisper/transcribe.ts`, as the trace of progress
events it delivers and whether it returned normally.  When the model is not
yet downloaded it first emits a `loading 0` event, then one `loading` event
per download progress callback (forwarding the percent); a download failure
propagates and ends the call.  Otherwise it emits `processing 0`, runs the
real backend (when available) or the mock backend, and finally emits
`complete 100`. -/
def transcribeEvents (homeDir modelName : String) (modelDownloaded : Bool)
    (resp : NetResponse) (realAvail inferOk : Bool) :
    List TranscriptionProgress × Bool :=
  let dl : List TranscriptionProgress × Bool :=
    if modelDownloaded then ([], true)
    else
      let r := downloadModel homeDir modelName resp
      (⟨.loading, 0, "Downloading Whisper " ++ modelName ++ " model..."⟩ ::
        r.2.1.map (fun p =>
          ⟨.loading, p.percent,
            "Downloading model: " ++ toString (round p.percent) ++ "%"⟩),
        r.2.2)
  if dl.2 then
    let body := ⟨.processing, 0, "Transcribing audio..."⟩ ::
      (if realAvail then realEvents inferOk else mockEvents)
    if realAvail ∧ inferOk = false then (dl.1 ++ body, false)
    else (dl.1 ++ body ++ [⟨.complete, 100, "Transcription complete"⟩], true)
  else (dl.1, false)

/-! ## Confidence heuristic (`calculateConfidence` of `src/whisper/transcribe.ts`)

```
if (!text || text.length === 0) return 0
if (text.length < 10) return 0.6
const words = text.toLowerCase().split(/\s+/)
const uniqueWords = new Set(words)
const repetitionRatio = uniqueWords.size / words.length
let confidence = 0.85
confidence *= (0.5 + 0.5 * repetitionRatio)
const gibberishRatio = (text.match(/[^\w\s\.\,\!\?\-]/g) || []).length / text.length
confidence *= (1 - gibberishRatio)
return Math.max(0.5, Math.min(0.98, confidence))
```
-/

/-- The whitespace class `\s` of the regexes above (ASCII portion:
space, tab, newline, carriage return, vertical tab, form feed). -/
def isJsWs (c : Char) : Bool :=
  c = ' ' || c = '\t' || c = '\n' || c = '\r' || c = '\x0b' || c = '\x0c'

/-- The word-character class `\w` (`[A-Za-z0-9_]`). -/
def isJsWordChar (c : Char) : Bool :=
  ('a' ≤ c && c ≤ 'z') || ('A' ≤ c && c ≤ 'Z') || ('0' ≤ c && c ≤ '9') || c = '_'

/-- A character *not* matched by `[^\w\s\.\,\!\?\-]`, i.e. one of the
"normal" characters that do not count towards the gibberish ratio. -/
def isNormalChar (c : Char) : Bool :=
  isJsWordChar c || isJsWs c || c = '.' || c = ',' || c = '!' || c = '?' || c = '-'

/-- JavaScript `str.split(/\s+/)` over a character list: pieces between
maximal whitespace runs; a leading or trailing run contributes an empty
piece, exactly as in JS.  `cur` is the (reversed) piece under
construction. -/
def splitWsGo (cur : List Char) : List Char → List (List Char)
  | [] => [cur.reverse]
  | c :: rest =>
    if isJsWs c then cur.reverse :: splitWsGo [] (rest.dropWhile isJsWs)
    else splitWsGo (c :: cur) rest
termination_by l => l.length
decreasing_by
  · exact Nat.lt_succ_of_le (List.dropWhile_sublist isJsWs).length_le
  · exact Nat.lt_succ_self rest.length

/-- `text.split(/\s+/)` on a character list. -/
def splitWs (s : List Char) : List (List Char) := splitWsGo [] s

/-- `calculateConfidence` of `src/whisper/transcribe.ts` (ASCII model:
`toLowerCase` is per-character ASCII lowercasing).  `Set(words).size` is the
number of distinct words. -/
def calculateConfidence (text : String) : ℚ :=
  let chars := text.data
  if chars.length = 0 then 0
  else if chars.length < 10 then 0.6
  else
    let words := splitWs (chars.map Char.toLower)
    let repetitionRatio : ℚ := (words.dedup.length : ℚ) / (words.length : ℚ)
    let confidence1 : ℚ := 0.85 * (0.5 + 0.5 * repetitionRatio)
    let gibberishRatio : ℚ :=
      ((chars.filter (fun c => !isNormalChar c)).length : ℚ) / (chars.length : ℚ)
    max 0.5 (min 0.98 (confidence1 * (1 - gibberishRatio)))

/-! ## Theorems -/

/-- Reading a 32-bit little-endian field back from a buffer at the offset
where it was written recovers the value, provided it fits in 32 bits. -/
theorem readUInt32LE_of_append (off : Nat) (pre post : List Nat) (v : Nat)
    (hpre : pre.length = off) (hv : v < 4294967296) :
    readUInt32LE (pre ++ (u32le v ++ post)) off = some v := by
  have hl : (pre ++ (u32le v ++ post)).length = off + (4 + post.length) := by
    simp [u32le, hpre]
    omega
  have hk : ∀ k, (pre ++ (u32le v ++ post)).getD (off + k) 0 =
      (u32le v ++ post).getD k 0 := by
    intro k
    rw [List.getD_append_right _ _ _ _ (by omega)]
    congr 1
    omega
  have h0 : (pre ++ (u32le v ++ post)).getD off 0 = v % 256 := by
    simpa [u32le, List.getD] using hk 0
  have h1 : (pre ++ (u32le v ++ post)).getD (off + 1) 0 = v / 256 % 256 := by
    simpa [u32le, List.getD] using hk 1
  have h2 : (pre ++ (u32le v ++ post)).getD (off + 2) 0 = v / 65536 % 256 := by
    simpa [u32le, List.getD] using hk 2
  have h3 : (pre ++ (u32le v ++ post)).getD (off + 3) 0 = v / 16777216 % 256 := by
    simpa [u32le, List.getD] using hk 3
  unfold readUInt32LE
  rw [if_pos (by omega), h0, h1, h2, h3]
  congr 1
  omega

/-- **C1** — Header round-trip: for every valid input (`sampleRate > 0`,
`channels ∈ {1,2}`, `bitsPerSample ∈ {8,16}`, `dataLength ≥ 0`), whenever
the encoder produces a header, reading the 32-bit little-endian field at
byte offset 24 of it yields `sampleRate` and reading the field at offset 40
yields `dataLength`. -/
theorem header_roundtrip (h : WavHeader) (buf : List Nat)
    (hsr : 0 < h.sampleRate)
    (hch : h.numChannels = 1 ∨ h.numChannels = 2)
    (hbits : h.bitsPerSample = 8 ∨ h.bitsPerSample = 16)
    (henc : createWavHeader h = some buf) :
    readUInt32LE buf 24 = some h.sampleRate ∧
      readUInt32LE buf 40 = some h.dataLength := by
  unfold createWavHeader at henc
  simp only [] at henc
  split at henc
  case isFalse => exact absurd henc (by simp)
  case isTrue hc =>
    obtain ⟨-, hdl, -, hsr32, hbr, -, -⟩ := hc
    rw [Option.some_inj] at henc
    subst henc
    constructor
    · rw [show riffBytes ++ u32le (36 + h.dataLength) ++ waveBytes ++ fmtBytes ++
          u32le 16 ++ u16le 1 ++ u16le h.numChannels ++ u32le h.sampleRate ++
          u32le (h.sampleRate * (h.numChannels * h.bitsPerSample / 8)) ++
          u16le (h.numChannels * h.bitsPerSample / 8) ++ u16le h.bitsPerSample ++
          dataBytes ++ u32le h.dataLength =
          (riffBytes ++ u32le (36 + h.dataLength) ++ waveBytes ++ fmtBytes ++
            u32le 16 ++ u16le 1 ++ u16le h.numChannels) ++
          (u32le h.sampleRate ++
            (u32le (h.sampleRate * (h.numChannels * h.bitsPerSample / 8)) ++
              u16le (h.numChannels * h.bitsPerSample / 8) ++ u16le h.bitsPerSample ++
              dataBytes ++ u32le h.dataLength)) by simp]
      exact readUInt32LE_of_append 24 _ _ _ (by simp [riffBytes, waveBytes, fmtBytes,
        u32le, u16le]) hsr32
    · rw [show riffBytes ++ u32le (36 + h.dataLength) ++ waveBytes ++ fmtBytes ++
          u32le 16 ++ u16le 1 ++ u16le h.numChannels ++ u32le h.sampleRate ++
          u32le (h.sampleRate * (h.numChannels * h.bitsPerSample / 8)) ++
          u16le (h.numChannels * h.bitsPerSample / 8) ++ u16le h.bitsPerSample ++
          dataBytes ++ u32le h.dataLength =
          (riffBytes ++ u32le (36 + h.dataLength) ++ waveBytes ++ fmtBytes ++
            u32le 16 ++ u16le 1 ++ u16le h.numChannels ++ u32le h.sampleRate ++
            u32le (h.sampleRate * (h.numChannels * h.bitsPerSample / 8)) ++
            u16le (h.numChannels * h.bitsPerSample / 8) ++ u16le h.bitsPerSample ++
            dataBytes) ++ (u32le h.dataLength ++ []) by simp]
      exact readUInt32LE_of_append 40 _ _ _ (by simp [riffBytes, waveBytes, fmtBytes,
        dataBytes, u32le, u16le]) (by omega)

/-- **C1 witness**: the round-trip at `sampleRate = 16000`, `channels = 1`,
`bitsPerSample = 16`, `dataLength = 100`. -/
theorem header_roundtrip_witness :
    readUInt32LE [82, 73, 70, 70, 136, 0, 0, 0, 87, 65, 86, 69, 102, 109, 116, 32,
      16, 0, 0, 0, 1, 0, 1, 0, 128, 62, 0, 0, 0, 125, 0, 0, 2, 0, 16, 0,
      100, 97, 116, 97, 100, 0, 0, 0] 24 = some 16000 ∧
    readUInt32LE [82, 73, 70, 70, 136, 0, 0, 0, 87, 65, 86, 69, 102, 109, 116, 32,
      16, 0, 0, 0, 1, 0, 1, 0, 128, 62, 0, 0, 0, 125, 0, 0, 2, 0, 16, 0,
      100, 97, 116, 97, 100, 0, 0, 0] 40 = some 100 :=
  header_roundtrip ⟨16000, 1, 16, 100⟩ _ (by decide) (Or.inl rfl) (Or.inr rfl)
    (by decide)

/-- **C7 counterexample**: a 44-byte all-zero buffer lacks every magic marker
(`"RIFF"`, `"WAVE"`, `"fmt "`, `"data"`), yet header decoding returns a value
for it instead of failing — the claim's "never returns a value for such
malformed input" is false. -/
theorem decodeHeader_no_magic_check :
    decodeHeader (List.replicate 44 0) = some (0, 0) := by decide

/-- **C7 (amended)**: header decoding reads `sampleRate` at fixed byte offset
24 and `dataLength` at offset 40; it fails (with a `RangeError`) exactly for
buffers shorter than 44 bytes.  No magic-marker validation is performed:
every buffer of at least 44 bytes yields a value. -/
theorem decodeHeader_spec (b : List Nat) :
    (b.length < 44 → decodeHeader b = none) ∧
    (44 ≤ b.length →
      ∃ sr dl, decodeHeader b = some (sr, dl) ∧
        readUInt32LE b 24 = some sr ∧ readUInt32LE b 40 = some dl) := by
  constructor
  · intro hlt
    have h40 : readUInt32LE b 40 = none := by
      unfold readUInt32LE
      rw [if_neg (by omega)]
    cases h24 : readUInt32LE b 24 <;> simp [decodeHeader, h24, h40]
  · intro hge
    have h24 : readUInt32LE b 24 = some (b.getD 24 0 + 256 * b.getD 25 0 +
        65536 * b.getD 26 0 + 16777216 * b.getD 27 0) := by
      unfold readUInt32LE
      rw [if_pos (by omega)]
    have h40 : readUInt32LE b 40 = some (b.getD 40 0 + 256 * b.getD 41 0 +
        65536 * b.getD 42 0 + 16777216 * b.getD 43 0) := by
      unfold readUInt32LE
      rw [if_pos (by omega)]
    exact ⟨_, _, by simp [decodeHeader, h24, h40], h24, h40⟩

/-- **C7 witness**: a 43-byte buffer fails to decode; a 44-byte buffer
decodes. -/
theorem decodeHeader_spec_witness :
    decodeHeader (List.replicate 43 2) = none ∧
    (∃ sr dl, decodeHeader (List.replicate 44 2) = some (sr, dl) ∧
      readUInt32LE (List.replicate 44 2) 24 = some sr ∧
      readUInt32LE (List.replicate 44 2) 40 = some dl) :=
  ⟨(decodeHeader_spec (List.replicate 43 2)).1 (by decide),
   (decodeHeader_spec (List.replicate 44 2)).2 (by decide)⟩

/-- **C4 counterexample**: the empty text is shorter than 10 characters, yet
`calculateConfidence` returns `0` for it (the `!text || text.length === 0`
guard), not `0.6` as the claim states for every text shorter than 10
characters. -/
theorem calculateConfidence_empty :
    "".length < 10 ∧ calculateConfidence "" ≠ 0.6 := by
  refine ⟨by decide, ?_⟩
  norm_num [calculateConfidence]

/-- **C4 (amended)** — Confidence heuristic bounds: for every **non-empty**
text shorter than 10 characters `calculateConfidence` returns exactly `0.6`,
and for every non-empty text the result lies in `[0.5, 0.98]` (the empty
text instead yields `0`). -/
theorem calculateConfidence_bounds (text : String) (hne : text ≠ "") :
    (text.length < 10 → calculateConfidence text = 0.6) ∧
    0.5 ≤ calculateConfidence text ∧ calculateConfidence text ≤ 0.98 := by
  have hlen : text.data.length ≠ 0 := by
    simp only [ne_eq, List.length_eq_zero]
    intro h
    exact hne (by cases text; simp_all)
  refine ⟨fun hlt => ?_, ?_⟩
  · unfold calculateConfidence
    rw [if_neg hlen, if_pos (show text.data.length < 10 from hlt)]
  · unfold calculateConfidence
    rw [if_neg hlen]
    split
    · norm_num
    · constructor
      · exact le_max_left _ _
      · exact max_le (by norm_num) (min_le_left _ _)

/-- **C4 witness**: the amended claim at the 2-character text `"hi"`. -/
theorem calculateConfidence_bounds_witness :
    calculateConfidence "hi" = 0.6 ∧
    0.5 ≤ calculateConfidence "hi" ∧ calculateConfidence "hi" ≤ 0.98 :=
  ⟨(calculateConfidence_bounds "hi" (by decide)).1 (by decide),
   (calculateConfidence_bounds "hi" (by decide)).2⟩

/-- The accumulation loop of `calculateAmplitude` computes exactly the sum
and the count of the absolute sample values at the byte offsets
`i, i + 200, i + 400, …` that have a full sample available. -/
theorem ampGo_spec (b : List Nat) (n : Nat) :
    ∀ i sum samples, b.length ≤ i + n →
      ampGo b i sum samples =
        (sum + ((sampleOffsets b.length i).map fun j => (readInt16LE b j).natAbs).sum,
         samples + (sampleOffsets b.length i).length) := by
  induction n with
  | zero =>
    intro i sum samples hle
    rw [ampGo.eq_def, sampleOffsets.eq_def]
    rw [if_neg (by omega), if_neg (by omega)]
    simp
  | succ n ih =>
    intro i sum samples hle
    rw [ampGo.eq_def, sampleOffsets.eq_def]
    by_cases h1 : i < b.length
    · rw [if_pos h1, if_pos h1]
      by_cases h2 : i + 1 < b.length
      · rw [if_pos h2, if_pos h2, ih (i + 200) _ _ (by omega)]
        simp [add_assoc]
        omega
      · rw [if_neg h2, if_neg h2, ih (i + 200) _ _ (by omega)]
        simp
    · rw [if_neg h1, if_neg h1]
      simp

/-- **C5 counterexample**: on the two-sample chunk `[0, 0, 255, 127]`
(samples `0` and `32767`) the code's amplitude is `0` — the loop steps 200
bytes at a time and only ever reads the first sample — while the mean of the
absolute values of *all* samples, normalized by 32768 and clamped, is
`32767/65536 ≠ 0`. -/
theorem calculateAmplitude_not_all_samples :
    calculateAmplitude [0, 0, 255, 127] ≠ claimedAmplitude [0, 0, 255, 127] := by
  have h : ampGo [0, 0, 255, 127] 0 0 0 = (0, 1) := by
    rw [ampGo.eq_def]
    norm_num [readInt16LE]
    rw [ampGo.eq_def]
    norm_num
  have h1 : calculateAmplitude [0, 0, 255, 127] = 0 := by
    norm_num [calculateAmplitude, h]
  have h2 : claimedAmplitude [0, 0, 255, 127] = 32767 / 65536 := by
    norm_num [claimedAmplitude, readInt16LE, List.range_succ]
  rw [h1, h2]
  norm_num

/-- `calculateAmplitude` equals its subsampled-mean specification. -/
theorem amplitude_subsample_eq (b : List Nat) :
    calculateAmplitude b = subsampleAmplitude b := by
  unfold calculateAmplitude subsampleAmplitude sampledAbs
  rw [ampGo_spec b b.length 0 0 0 (by omega)]
  by_cases hshort : b.length < 2
  · rw [if_pos hshort, if_pos hshort]
  · rw [if_neg hshort, if_neg hshort]
    simp only [Nat.zero_add, List.length_map]

/-- **C5 (amended)**: for every chunk of 16-bit little-endian signed PCM
bytes, `calculateAmplitude` returns the mean of the absolute values of the
*subsampled* sequence of samples — one sample every 200 bytes (every 100th
sample), as the loop `for (i = 0; i < length; i += 200)` reads — normalized
by 32768 and clamped to 1.0; a chunk containing fewer than one sample
(fewer than 2 bytes) yields 0. -/
theorem calculateAmplitude_eq_subsample (b : List Nat) :
    calculateAmplitude b = subsampleAmplitude b :=
  amplitude_subsample_eq b

/-- **C6** — Amplitude bounds: for every byte buffer the amplitude lies in
`[0, 1]`, and every all-zero buffer yields exactly 0. -/
theorem calculateAmplitude_bounds (b : List Nat) :
    0 ≤ calculateAmplitude b ∧ calculateAmplitude b ≤ 1 ∧
      ((∀ x ∈ b, x = 0) → calculateAmplitude b = 0) := by
  rw [amplitude_subsample_eq]
  refine ⟨?_, ?_, ?_⟩
  · unfold subsampleAmplitude
    split
    · norm_num
    · split
      · norm_num
      · exact le_min (by norm_num) (by positivity)
  · unfold subsampleAmplitude
    split
    · norm_num
    · split
      · norm_num
      · exact min_le_left _ _
  · intro hz
    have hread : ∀ j, readInt16LE b j = 0 := by
      intro j
      have hgetD : ∀ k, b.getD k 0 = 0 := by
        intro k
        rcases lt_or_ge k b.length with hk | hk
        · rw [List.getD_eq_getElem b 0 hk]
          exact hz _ (b.getElem_mem hk)
        · exact List.getD_eq_default b 0 hk
      unfold readInt16LE
      rw [hgetD j, hgetD (j + 1)]
      norm_num
    unfold subsampleAmplitude
    have hsum : (sampledAbs b).sum = 0 := by
      apply List.sum_eq_zero
      intro x hx
      unfold sampledAbs at hx
      obtain ⟨j, -, rfl⟩ := List.mem_map.mp hx
      rw [hread j]
      rfl
    split
    · rfl
    · split
      · rfl
      · rw [hsum]
        norm_num

/-- **C6 witness**: the bounds and the all-zero case at the concrete
four-byte zero buffer. -/
theorem calculateAmplitude_bounds_witness :
    0 ≤ calculateAmplitude [0, 0, 0, 0] ∧ calculateAmplitude [0, 0, 0, 0] ≤ 1 ∧
      calculateAmplitude [0, 0, 0, 0] = 0 :=
  ⟨(calculateAmplitude_bounds [0, 0, 0, 0]).1,
   (calculateAmplitude_bounds [0, 0, 0, 0]).2.1,
   (calculateAmplitude_bounds [0, 0, 0, 0]).2.2 (by decide)⟩

/-- **C2** — Invalid-state guards: `start()` while a recording is active
fails with the `InvalidStateError` (`'Already recording'`), and `stop()`
while no recording is active — including on a session that never started —
fails with the `InvalidStateError` (`'Not recording'`); in both cases the
failing call returns the session state completely unchanged (recording
flag, chunk sequence, start timestamp). -/
theorem invalid_state_guards (s : RecorderState) (now now2 : Nat) (captureOk : Bool) :
    (s.isRecording = true → start s now captureOk = (s, some .alreadyRecording)) ∧
    (s.isRecording = false → stop s now2 = (s, .error .notRecording)) := by
  constructor
  · intro hrec
    unfold start
    rw [if_pos hrec]
  · intro hidle
    unfold stop
    rw [if_neg (by simp [hidle])]

/-- **C2 witness**: the guards at concrete recorder states — a recording
session rejects a second `start()`, and a session that never started rejects
`stop()` — both leaving the state untouched. -/
theorem invalid_state_guards_witness :
    start ⟨true, [[7]], 5, false, 16000, 60⟩ 9 true =
      (⟨true, [[7]], 5, false, 16000, 60⟩, some .alreadyRecording) ∧
    stop ⟨false, [], 0, false, 16000, 60⟩ 9 =
      (⟨false, [], 0, false, 16000, 60⟩, .error .notRecording) :=
  ⟨(invalid_state_guards ⟨true, [[7]], 5, false, 16000, 60⟩ 9 9 true).1 rfl,
   (invalid_state_guards ⟨false, [], 0, false, 16000, 60⟩ 9 9 true).2 rfl⟩

/-- **C9** — Auto-stop: when the duration limit has been reached, the chunk
handler itself invokes `stop()` and discards the returned `RecordingResult`:
afterwards the recording flag is `false`, a subsequent external `stop()`
fails with the `InvalidStateError` and changes nothing, and the handler
delivered nothing but the amplitude value to the registered callback (the
concatenated audio buffer reaches no caller and no callback). -/
theorem auto_stop_discards_result (s : RecorderState) (chunk : List Nat)
    (now now2 : Nat) (hrec : s.isRecording = true)
    (hlimit : s.durationLimit ≤ elapsedTime s now) :
    (onChunk s chunk now).1.isRecording = false ∧
    stop (onChunk s chunk now).1 now2 =
      ((onChunk s chunk now).1, .error .notRecording) ∧
    (onChunk s chunk now).2 =
      (if s.hasAmplitudeCallback then [calculateAmplitude chunk] else []) := by
  have helapsed :
      elapsedTime { s with audioChunks := s.audioChunks ++ [chunk] } now =
        elapsedTime s now := by
    unfold elapsedTime
    rfl
  have hstep : (onChunk s chunk now).1 =
      { s with audioChunks := s.audioChunks ++ [chunk], isRecording := false } ∧
      (onChunk s chunk now).2 =
        (if s.hasAmplitudeCallback then [calculateAmplitude chunk] else []) := by
    unfold onChunk
    rw [if_pos (helapsed ▸ hlimit)]
    unfold stop
    rw [if_pos (by simp [hrec])]
    exact ⟨rfl, rfl⟩
  refine ⟨?_, ?_, hstep.2⟩
  · rw [hstep.1]
  · rw [hstep.1]
    unfold stop
    rw [if_neg (by simp)]

/-- **C9 witness**: auto-stop at the 60-second limit of a concrete recording
session receiving a chunk at `t = 60000 ms`. -/
theorem auto_stop_discards_result_witness :
    (onChunk ⟨true, [], 0, true, 16000, 60⟩ [1, 1] 60000).1.isRecording = false ∧
    stop (onChunk ⟨true, [], 0, true, 16000, 60⟩ [1, 1] 60000).1 61000 =
      ((onChunk ⟨true, [], 0, true, 16000, 60⟩ [1, 1] 60000).1,
        .error .notRecording) ∧
    (onChunk ⟨true, [], 0, true, 16000, 60⟩ [1, 1] 60000).2 =
      (if (true : Bool) then [calculateAmplitude [1, 1]] else []) :=
  auto_stop_discards_result ⟨true, [], 0, true, 16000, 60⟩ [1, 1] 60000 61000 rfl
    (by norm_num [elapsedTime])

/-- **C10** — `deleteModel` does not delete: for every registered model name,
after `deleteModel` completes the file still exists at the model's local path
(it is overwritten with empty content, per the source's own comment), so a
subsequent `isModelDownloaded` returns `true` even though the asset's
contents are gone. -/
theorem deleteModel_keeps_file (homeDir modelName : String) (fs : FileSystem)
    (hreg : modelName ∈ whisperModelNames) :
    isModelDownloaded homeDir modelName (deleteModel homeDir modelName fs) = true ∧
    deleteModel homeDir modelName fs (getModelPath homeDir modelName) = some [] := by
  unfold isModelDownloaded deleteModel fsWrite
  simp

/-- **C10 witness**: deleting `"tiny"` on an empty filesystem leaves an
empty file that `isModelDownloaded` reports as present. -/
theorem deleteModel_keeps_file_witness :
    isModelDownloaded "/home/u" "tiny"
      (deleteModel "/home/u" "tiny" (fun _ => none)) = true ∧
    deleteModel "/home/u" "tiny" (fun _ => none)
      (getModelPath "/home/u" "tiny") = some [] :=
  deleteModel_keeps_file "/home/u" "tiny" (fun _ => none) (by decide)

/-- The `.gitkeep` marker that `downloadModel` writes first never aliases the
model's canonical final path: the former ends in `'p'`, the latter in
`'n'`. -/
theorem gitkeep_ne_modelPath (homeDir modelName : String) :
    modelDirPath (getModelPath homeDir modelName) ++ "/.gitkeep" ≠
      getModelPath homeDir modelName := by
  intro h
  have hdata := congrArg (fun s => s.data.getLast?) h
  simp only [String.data_append] at hdata
  rw [List.getLast?_append_of_ne_nil _ (by decide)] at hdata
  have hbin : (getModelPath homeDir modelName).data =
      (homeDir ++ "/.voice-tui/models/ggml-" ++ modelName).data ++ ".bin".data := by
    unfold getModelPath
    rw [String.data_append]
  rw [hbin, List.getLast?_append_of_ne_nil _ (by decide)] at hdata
  exact absurd hdata (by decide)

/-- **C8** — No partial model file: for every download call, at most one
write ever targets the model's canonical final path; when the call fails
(non-OK response, missing body, or a stream-read failure) no write at all
targets that path; and when a write does occur, the call succeeded and the
written content is the concatenation of the entire received stream. -/
theorem download_no_partial_file (homeDir modelName : String) (resp : NetResponse) :
    ((downloadModel homeDir modelName resp).1.filter
        (fun e => e.path = getModelPath homeDir modelName)).length ≤ 1 ∧
    ((downloadModel homeDir modelName resp).2.2 = false →
      (downloadModel homeDir modelName resp).1.filter
        (fun e => e.path = getModelPath homeDir modelName) = []) ∧
    ((downloadModel homeDir modelName resp).2.2 = true →
      (downloadModel homeDir modelName resp).1.filter
        (fun e => e.path = getModelPath homeDir modelName) =
        [⟨getModelPath homeDir modelName, resp.chunks.flatten⟩]) := by
  have hne := gitkeep_ne_modelPath homeDir modelName
  unfold downloadModel
  rcases resp with ⟨ok, hasBody, contentLength, chunks, streamError⟩
  cases ok <;> cases hasBody <;> cases streamError <;>
    simp [List.filter, hne]

/-- **C8 witness**: a failing download (non-OK response) writes nothing to
the model path; a successful two-chunk download writes exactly the full
concatenated stream there, once. -/
theorem download_no_partial_file_witness :
    (downloadModel "/h" "tiny" ⟨false, true, 4, [[1, 2]], false⟩).1.filter
        (fun e => e.path = getModelPath "/h" "tiny") = [] ∧
    (downloadModel "/h" "tiny" ⟨true, true, 4, [[1, 2], [3, 4]], false⟩).1.filter
        (fun e => e.path = getModelPath "/h" "tiny") =
      [⟨getModelPath "/h" "tiny", [1, 2, 3, 4]⟩] :=
  ⟨(download_no_partial_file "/h" "tiny" ⟨false, true, 4, [[1, 2]], false⟩).2.1 rfl,
   (download_no_partial_file "/h" "tiny" ⟨true, true, 4, [[1, 2], [3, 4]], false⟩).2.2 rfl⟩

/-- The download-progress percents starting from a running total `acc` are
bounded below by `acc`'s percent and are non-decreasing. -/
theorem progressAux_chain (total : Nat) :
    ∀ (chunks : List (List Nat)) (acc : Nat),
      List.Chain (· ≤ ·) (((acc : ℚ) / (total : ℚ)) * 100)
        ((progressAux total acc chunks).map fun p => p.percent) := by
  intro chunks
  induction chunks with
  | nil => intro acc; exact List.Chain.nil
  | cons c rest ih =>
    intro acc
    simp only [progressAux, List.map_cons]
    refine List.Chain.cons ?_ (ih (acc + c.length))
    rcases Nat.eq_zero_or_pos total with h0 | hpos
    · simp [h0]
    · have ht : (0 : ℚ) < total := by exact_mod_cast hpos
      have hle : (acc : ℚ) ≤ ((acc + c.length : Nat) : ℚ) := by
        push_cast
        linarith [show (0 : ℚ) ≤ c.length from by positivity]
      exact mul_le_mul_of_nonneg_right ((div_le_div_iff_of_pos_right ht).mpr hle)
        (by norm_num)

/-- The percents of all progress callbacks of one download are
non-decreasing. -/
theorem progressList_chain (total : Nat) (chunks : List (List Nat)) :
    List.Chain' (· ≤ ·) ((progressList total chunks).map fun p => p.percent) := by
  unfold progressList
  split
  · have h : List.Chain' (· ≤ ·) ((((0 : Nat) : ℚ) / (total : ℚ) * 100) ::
        ((progressAux total 0 chunks).map fun p => p.percent)) :=
      progressAux_chain total chunks 0
    exact h.tail
  · exact List.chain'_nil

/-- Every event of the model-download phase of `transcribeEvents` has status
`loading`. -/
theorem download_phase_loading (homeDir modelName : String) (resp : NetResponse)
    (e : TranscriptionProgress)
    (he : e ∈ ((downloadModel homeDir modelName resp).2.1.map fun p =>
      (⟨.loading, p.percent,
        "Downloading model: " ++ toString (round p.percent) ++ "%"⟩ :
        TranscriptionProgress))) :
    e.status = .loading := by
  obtain ⟨p, -, rfl⟩ := List.mem_map.mp he
  rfl

/-- Every event of `mockEvents` has status `processing`. -/
theorem mockEvents_processing (e : TranscriptionProgress) (he : e ∈ mockEvents) :
    e.status = .processing := by
  obtain ⟨i, -, rfl⟩ := List.mem_map.mp he
  rfl

/-- Every event of `realEvents` has status `processing`. -/
theorem realEvents_processing (inferOk : Bool) (e : TranscriptionProgress)
    (he : e ∈ realEvents inferOk) :
    e.status = .processing := by
  unfold realEvents at he
  rcases List.mem_cons.mp he with rfl | h
  · rfl
  · cases inferOk
    · simp at h
    · simp at h
      rw [h]

/-- **C3 counterexample**: a transcription call that first has to download
the model is *not* monotone in percent — here the download reaches 50%
(5 of 10 announced bytes) and the subsequent `processing` phase restarts at
0%, so the percent sequence `0, 50, 0, 25, 75, 100` decreases at the third
callback. -/
theorem transcribe_progress_not_monotone :
    ¬ List.Chain' (· ≤ ·)
      ((transcribeEvents "/h" "tiny" false
          ⟨true, true, 10, [[0, 0, 0, 0, 0]], false⟩ true true).1.map
        fun e => e.percent) := by
  norm_num [transcribeEvents, downloadModel, progressList, progressAux, realEvents,
    List.chain'_cons]

/-- **C3 (amended)**: (1) within a single download call the percents passed
to the progress callback are monotonically non-decreasing; (2) within a
single transcription call that does not trigger a model download the
percents are monotonically non-decreasing; (3) in every transcription call
that completes, the terminal `complete`/100-percent event is delivered
strictly after every other progress callback of that call (it is the final
event, and no earlier event is a `complete` event).  When a transcription
call does trigger a download, the `processing` phase restarts at percent 0,
which may be below the last download percent. -/
theorem progress_ordering (homeDir modelName : String) (resp : NetResponse)
    (md realAvail inferOk : Bool) :
    List.Chain' (· ≤ ·)
      (((downloadModel homeDir modelName resp).2.1).map fun p => p.percent) ∧
    List.Chain' (· ≤ ·)
      ((transcribeEvents homeDir modelName true resp realAvail inferOk).1.map
        fun e => e.percent) ∧
    ((transcribeEvents homeDir modelName md resp realAvail inferOk).2 = true →
      ∃ pre, (transcribeEvents homeDir modelName md resp realAvail inferOk).1 =
          pre ++ [⟨.complete, 100, "Transcription complete"⟩] ∧
        ∀ e ∈ pre, e.status ≠ .complete) := by
  refine ⟨?_, ?_, ?_⟩
  · unfold downloadModel
    rcases resp with ⟨ok, hasBody, contentLength, chunks, streamError⟩
    cases ok <;> cases hasBody <;> cases streamError <;>
      simp [progressList_chain]
  · cases realAvail <;> cases inferOk <;>
      norm_num [transcribeEvents, realEvents, mockEvents, List.range_succ,
        List.chain'_cons]
  · intro hsucc
    cases md
    · cases hdl : (downloadModel homeDir modelName resp).2.2
      · rw [show (transcribeEvents homeDir modelName false resp realAvail inferOk).2 =
            false by simp [transcribeEvents, hdl]] at hsucc
        exact absurd hsucc (by simp)
      · by_cases hfail : realAvail = true ∧ inferOk = false
        · rw [show (transcribeEvents homeDir modelName false resp realAvail inferOk).2 =
              false by simp [transcribeEvents, hdl, hfail]] at hsucc
          exact absurd hsucc (by simp)
        · refine ⟨(⟨.loading, 0, "Downloading Whisper " ++ modelName ++ " model..."⟩ ::
              ((downloadModel homeDir modelName resp).2.1.map fun p =>
                (⟨.loading, p.percent,
                  "Downloading model: " ++ toString (round p.percent) ++ "%"⟩ :
                  TranscriptionProgress))) ++
              (⟨.processing, 0, "Transcribing audio..."⟩ ::
                (if realAvail then realEvents inferOk else mockEvents)), ?_, ?_⟩
          · simp [transcribeEvents, hdl, hfail]
          · intro e he
            simp only [List.mem_append, List.mem_cons] at he
            rcases he with (rfl | h) | (rfl | h)
            · simp
            · rw [download_phase_loading homeDir modelName resp e h]
              simp
            · simp
            · split at h
              · rw [realEvents_processing _ e h]
                simp
              · rw [mockEvents_processing e h]
                simp
    · by_cases hfail : realAvail = true ∧ inferOk = false
      · rw [show (transcribeEvents homeDir modelName true resp realAvail inferOk).2 =
            false by simp [transcribeEvents, hfail]] at hsucc
        exact absurd hsucc (by simp)
      · refine ⟨⟨.processing, 0, "Transcribing audio..."⟩ ::
            (if realAvail then realEvents inferOk else mockEvents), ?_, ?_⟩
        · simp [transcribeEvents, hfail]
        · intro e he
          simp only [List.mem_cons] at he
          rcases he with rfl | h
          · simp
          · split at h
            · rw [realEvents_processing _ e h]
              simp
            · rw [mockEvents_processing e h]
              simp

/-- **C3 witness**: the amended ordering at a concrete successful mock
transcription with the model already present (and a concrete two-chunk
download for the download part). -/
theorem progress_ordering_witness :
    List.Chain' (· ≤ ·)
      (((downloadModel "/h" "tiny" ⟨true, true, 4, [[1, 2], [3]], false⟩).2.1).map
        fun p => p.percent) ∧
    (∃ pre, (transcribeEvents "/h" "tiny" true
          ⟨true, true, 4, [[1, 2], [3]], false⟩ false true).1 =
        pre ++ [⟨.complete, 100, "Transcription complete"⟩] ∧
      ∀ e ∈ pre, e.status ≠ .complete) :=
  ⟨(progress_ordering "/h" "tiny" ⟨true, true, 4, [[1, 2], [3]], false⟩
      true false true).1,
   (progress_ordering "/h" "tiny" ⟨true, true, 4, [[1, 2], [3]], false⟩
      true false true).2.2 rfl⟩

end VoiceTui
